import Mathlib

/-!
A shallow embedding of the `telegrambot` Go library (github.com/nickname76/telegrambot),
covering the call dispatcher `makeAPICall`, the request encoder (JSON vs multipart),
the `InputFile` variants (`FileID`, `FileURL`, `FileReader`), the update poller
(`StartReceivingUpdatesWithParams`, `SortUpdates`), the callback-query data helpers
(`CompileCbQryData`, `DecompileCbQryData`) and `ParseMessageCommand`.

Go machine integers (`int`, `int64`) are modelled as `Int`; Go strings as Lean
`String` (one `Char` standing for one Go byte); Go `[]byte` contents as `List Nat`;
nilable Go slices as `Option (List _)`; nil interface values as `Option _`.
Code that can panic (out-of-range string slicing) returns `Option`.
-/

namespace Telegrambot

/-! ### Callback query data helpers (telegrambotTools.go) -/

/-- Go `CompileCbQryData(command, args string) string`:
concatenates command and args with the NUL (`"\x00"`) separator,
or returns the bare command when `args` is empty. -/
def CompileCbQryData (command args : String) : String :=
  if args = "" then command else command ++ "\x00" ++ args

/-- Helper modelling Go `strings.SplitN(s, "\x00", 2)`: splits at the first NUL
character only.  Returns the prefix before the first NUL and, when a NUL is
present, the remainder after it. -/
def splitN2NUL : List Char → List Char × Option (List Char)
  | [] => ([], none)
  | c :: cs =>
    if c = '\x00' then ([], some cs)
    else
      let r := splitN2NUL cs
      (c :: r.1, r.2)

/-- Go `DecompileCbQryData(cbQryData string) (command, args string)`:
`command` is the part before the first NUL, `args` the part after it
(empty when there is no NUL). -/
def DecompileCbQryData (s : String) : String × String :=
  match splitN2NUL s.data with
  | (cmd, none) => (String.mk cmd, "")
  | (cmd, some rest) => (String.mk cmd, String.mk rest)

theorem splitN2NUL_no_nul (l : List Char) (h : '\x00' ∉ l) :
    splitN2NUL l = (l, none) := by
  induction l with
  | nil => rfl
  | cons c cs ih =>
    simp only [List.mem_cons, not_or] at h
    simp [splitN2NUL, Ne.symm h.1, ih h.2]

theorem splitN2NUL_append (l r : List Char) (h : '\x00' ∉ l) :
    splitN2NUL (l ++ '\x00' :: r) = (l, some r) := by
  induction l with
  | nil => simp [splitN2NUL]
  | cons c cs ih =>
    simp only [List.mem_cons, not_or] at h
    simp [splitN2NUL, Ne.symm h.1, ih h.2]

/-- C9: for every command string without the NUL character and every args string,
`DecompileCbQryData (CompileCbQryData command args) = (command, args)`,
including `args = ""` where the compiled data is the bare command. -/
theorem compile_decompile_cbQryData_roundtrip (command args : String)
    (h : '\x00' ∉ command.data) :
    DecompileCbQryData (CompileCbQryData command args) = (command, args) := by
  by_cases ha : args = ""
  · subst ha
    have h1 : CompileCbQryData command "" = command := rfl
    rw [h1]
    simp only [DecompileCbQryData, splitN2NUL_no_nul command.data h]
  · have hdata : (command ++ "\x00" ++ args).data
        = command.data ++ '\x00' :: args.data := by
      simp [String.data_append]
    simp only [CompileCbQryData, if_neg ha, DecompileCbQryData, hdata,
      splitN2NUL_append command.data args.data h]

/-- Witness for C9 at a concrete input: the command has no NUL character,
and the round trip is the identity, also through a NUL inside `args`. -/
theorem compile_decompile_cbQryData_roundtrip_witness :
    '\x00' ∉ "page".data ∧
      DecompileCbQryData (CompileCbQryData "page" "7 fwd") = ("page", "7 fwd") := by
  refine ⟨by decide, compile_decompile_cbQryData_roundtrip "page" "7 fwd" (by decide)⟩

/-! ### Call dispatcher (telegrambot.go, `makeAPICall` lines 147-181)

The transport (`api.HttpDoRequest`) together with the envelope decoding is
modelled by a script: a list of per-call outcomes, each either a transport or
decode error (`Except.error`) or a decoded `Response` envelope (`Except.ok`).
The loop consumes one script entry per transport call; `runDispatch` returns
`none` when the script is exhausted (the Go loop would perform another call). -/

/-- Go `ResponseParameters` (migrate_to_chat_id, retry_after), both `0` when absent
(`omitempty` / zero value). `ChatID` is `int64`, `RetryAfter` is `int`. -/
structure ResponseParameters where
  migrateToChatID : Int
  retryAfter : Int
deriving DecidableEq

/-- Go `Response` envelope: `ok`, `description`, optional `parameters`, and the
result payload decoded into `resultDest` (modelled as an optional string,
`none` when the envelope carries no result). -/
structure Response where
  ok : Bool
  description : String
  parameters : Option ResponseParameters
  result : Option String
deriving DecidableEq

/-- One transport-plus-decode outcome: a transport or decode error, or a decoded
envelope. -/
abbrev FetchOutcome := Except String Response

/-- Observable outcome of one `makeAPICall` dispatch loop: the body sent on each
transport call (in order), the seconds slept before each internal retry (in
order), and the Go return values `(migrateToChatID, err)` plus the decoded
result left in `resultDest`. -/
structure DispatchOutcome where
  sentBodies : List String
  sleeps : List Int
  migratedChatID : Int
  error : Option String
  result : Option String
deriving DecidableEq

/-- The `loop:`/`for` dispatch loop of `makeAPICall` (telegrambot.go lines 147-181),
run against a transport script.  Branches, in source order: transport/decode
error returns `(0, err)` at once; `ok` returns `(0, nil)` with the decoded
result; otherwise with parameters present, a non-zero `MigrateToChatID` returns
`(id, nil)` at once, else a non-zero `RetryAfter` sleeps and reissues the same
body, else the description is returned as the error. -/
def runDispatch (body : String) : List FetchOutcome → Option DispatchOutcome
  | [] => none
  | outcome :: rest =>
    match outcome with
    | .error e => some ⟨[body], [], 0, some ("makeAPICall: " ++ e), none⟩
    | .ok resp =>
      if resp.ok then
        some ⟨[body], [], 0, none, resp.result⟩
      else
        match resp.parameters with
        | some p =>
          if p.migrateToChatID ≠ 0 then
            some ⟨[body], [], p.migrateToChatID, none, resp.result⟩
          else if p.retryAfter ≠ 0 then
            match runDispatch body rest with
            | none => none
            | some o =>
              some ⟨body :: o.sentBodies, p.retryAfter :: o.sleeps,
                o.migratedChatID, o.error, o.result⟩
          else
            some ⟨[body], [], 0,
              some ("makeAPICall - telegram bot api error: " ++ resp.description),
              resp.result⟩
        | none =>
          some ⟨[body], [], 0,
            some ("makeAPICall - telegram bot api error: " ++ resp.description),
            resp.result⟩

/-- C1: a `success=false` envelope whose parameters carry a non-zero
migrate-to-chat identifier makes the dispatcher return that identifier with a
nil error after exactly one transport call, whatever `retryAfter` and the rest
of the script are (the migration branch has priority over the retry-after
branch). -/
theorem dispatch_migration_non_retry (body : String) (resp : Response)
    (p : ResponseParameters) (rest : List FetchOutcome)
    (hok : resp.ok = false) (hp : resp.parameters = some p)
    (hmig : p.migrateToChatID ≠ 0) :
    runDispatch body (.ok resp :: rest)
      = some ⟨[body], [], p.migrateToChatID, none, resp.result⟩ := by
  simp [runDispatch, hok, hp, hmig]

/-- Witness for C1: a response with `migrate_to_chat_id = 123`, a non-zero
`retry_after = 7` and a further scripted success; the dispatcher returns
`(123, nil)` after one transport call, without sleeping. -/
theorem dispatch_migration_non_retry_witness :
    (Response.mk false "group migrated" (some ⟨123, 7⟩) none).ok = false ∧
      runDispatch "body0"
        [.ok (Response.mk false "group migrated" (some ⟨123, 7⟩) none),
         .ok (Response.mk true "" none (some "r"))]
        = some ⟨["body0"], [], 123, none, none⟩ := by
  exact ⟨rfl,
    dispatch_migration_non_retry "body0"
      (Response.mk false "group migrated" (some ⟨123, 7⟩) none) ⟨123, 7⟩
      [.ok (Response.mk true "" none (some "r"))] rfl rfl (by decide)⟩

/-- C2: a run of `success=false` envelopes with no migrate-to-chat identifier and
a non-zero retry-after makes the dispatcher sleep each scripted retry-after
duration and reissue the same already-encoded body once per envelope, with no
retry-count limit; the first subsequent `success=true` envelope ends the loop
with the decoded result and a nil error. -/
theorem dispatch_rate_limit_retry (body : String)
    (retries : List (Response × ResponseParameters)) (resp : Response)
    (rest : List FetchOutcome)
    (hretries : ∀ x ∈ retries, x.1.ok = false ∧ x.1.parameters = some x.2 ∧
      x.2.migrateToChatID = 0 ∧ x.2.retryAfter ≠ 0)
    (hok : resp.ok = true) :
    runDispatch body (retries.map (fun x => .ok x.1) ++ .ok resp :: rest)
      = some ⟨List.replicate (retries.length + 1) body,
          retries.map (fun x => x.2.retryAfter), 0, none, resp.result⟩ := by
  induction retries with
  | nil => simp [runDispatch, hok]
  | cons hd tl ih =>
    obtain ⟨h1, h2, h3, h4⟩ := hretries hd (List.mem_cons_self hd tl)
    have ihtl := ih (fun x hx => hretries x (List.mem_cons_of_mem hd hx))
    simp only [List.map_cons, List.cons_append, runDispatch, h1, h2, h3, h4,
      Bool.false_eq_true, if_false, ne_eq, not_true_eq_false, if_true,
      not_false_eq_true]
    simp only [List.append_eq]
    rw [ihtl]
    simp [List.replicate_succ]

/-- Witness for C2, matching the spec's scripted test: `retry_after = 2` on the
first call and success on the second; the dispatcher sleeps 2 seconds, performs
exactly two transport calls with the same body, and returns the decoded result
with no error. -/
theorem dispatch_rate_limit_retry_witness :
    runDispatch "encoded"
      [.ok (Response.mk false "Too Many Requests" (some ⟨0, 2⟩) none),
       .ok (Response.mk true "" none (some "sent message"))]
      = some ⟨["encoded", "encoded"], [2], 0, none, some "sent message"⟩ := by
  have h := dispatch_rate_limit_retry "encoded"
    [(Response.mk false "Too Many Requests" (some ⟨0, 2⟩) none, ⟨0, 2⟩)]
    (Response.mk true "" none (some "sent message")) []
    (by intro x hx; simp at hx; subst hx; exact ⟨rfl, rfl, rfl, by decide⟩) rfl
  simpa using h

/-! ### Per-endpoint wrapper `SendMessage` (sendingMessages file, lines 93-110)

`SendMessageParams` is reduced to the fields the claim is about: the chat
identifier (mutated on migration retry) and the text.  `jsoniter.Marshal` of the
parameter struct is modelled by `serializeFields` over the tagged field list. -/

/-- A marshalled JSON object, as a flat list of (field name, field value as its
JSON text form) pairs, the view `jsoniter`'s `ReadMapCB` produces. -/
abbrev Field := String × String

/-- Stands for the `jsoniter.Marshal` output bytes of a field-tagged struct. -/
def serializeFields (fields : List Field) : String :=
  String.intercalate "," (fields.map (fun f => f.1 ++ ":" ++ f.2))

/-- Go `SendMessageParams`, reduced to the fields relevant here; `ChatID` holds the
`int64` chat identifier (the `ChatIDOrUsername` given by the caller or the
migrated `ChatID` assigned by the wrapper). -/
structure SendMessageParams where
  chatID : Int
  text : String
deriving DecidableEq

/-- The tagged fields `jsoniter.Marshal` serializes for `SendMessageParams`. -/
def SendMessageParams.fields (p : SendMessageParams) : List Field :=
  [("chat_id", toString p.chatID), ("text", p.text)]

/-- Dispatch of `makeAPICall` for a call without input files: the body is the JSON bytes,
encoded once, and the dispatch loop runs against the transport script. -/
def makeAPICallJSON (fields : List Field) (script : List FetchOutcome) :
    Option DispatchOutcome :=
  runDispatch (serializeFields fields) script

/-- Go `API.SendMessage` (lines 93-110): one `makeAPICall`; on a non-nil error
with a non-zero migrated chat id, update `params.ChatID` and reissue once.
Returns the (decoded or zero-value `""`) message and the error, plus the trace
of marshalled parameter objects, one per `makeAPICall` invocation.  Each
invocation consumes its own transport script. -/
def sendMessage (script1 script2 : List FetchOutcome) (params : SendMessageParams) :
    Option (Except String String × List (List Field)) :=
  match makeAPICallJSON params.fields script1 with
  | none => none
  | some o1 =>
    match o1.error with
    | none => some (.ok (o1.result.getD ""), [params.fields])
    | some e =>
      if o1.migratedChatID ≠ 0 then
        let params2 : SendMessageParams := { params with chatID := o1.migratedChatID }
        match makeAPICallJSON params2.fields script2 with
        | none => none
        | some o2 =>
          match o2.error with
          | none => some (.ok (o2.result.getD ""), [params.fields, params2.fields])
          | some e2 =>
            some (.error ("SendMessage: " ++ e2), [params.fields, params2.fields])
      else
        some (.error ("SendMessage: " ++ e), [params.fields])

/-- Whenever the dispatcher returns a non-zero migrated chat identifier, its
returned error is nil: the two are never non-zero/non-nil together, so a retry
branch guarded by a non-nil error AND a non-zero migrated id is unreachable. -/
theorem runDispatch_migrated_imp_no_error (body : String) :
    ∀ (script : List FetchOutcome) (o : DispatchOutcome),
      runDispatch body script = some o → o.migratedChatID ≠ 0 → o.error = none := by
  intro script
  induction script with
  | nil =>
    intro o h hmig
    exact absurd h (by simp [runDispatch])
  | cons hd tl ih =>
    intro o h hmig
    cases hd with
    | error e =>
      have h' : runDispatch body (.error e :: tl)
          = some ⟨[body], [], 0, some ("makeAPICall: " ++ e), none⟩ := by
        simp [runDispatch]
      rw [h'] at h
      injection h with h
      subst h
      exact absurd rfl hmig
    | ok resp =>
      by_cases hok : resp.ok = true
      · have h' : runDispatch body (.ok resp :: tl)
            = some ⟨[body], [], 0, none, resp.result⟩ := by
          simp [runDispatch, hok]
        rw [h'] at h
        injection h with h
        subst h
        rfl
      · cases hp : resp.parameters with
        | none =>
          have h' : runDispatch body (.ok resp :: tl)
              = some ⟨[body], [], 0,
                  some ("makeAPICall - telegram bot api error: " ++ resp.description),
                  resp.result⟩ := by
            simp [runDispatch, hok, hp]
          rw [h'] at h
          injection h with h
          subst h
          exact absurd rfl hmig
        | some p =>
          by_cases hm : p.migrateToChatID = 0
          · by_cases hr : p.retryAfter = 0
            · have h' : runDispatch body (.ok resp :: tl)
                  = some ⟨[body], [], 0,
                      some ("makeAPICall - telegram bot api error: " ++ resp.description),
                      resp.result⟩ := by
                simp [runDispatch, hok, hp, hm, hr]
              rw [h'] at h
              injection h with h
              subst h
              exact absurd rfl hmig
            · cases htl : runDispatch body tl with
              | none =>
                have h' : runDispatch body (.ok resp :: tl) = none := by
                  simp [runDispatch, hok, hp, hm, hr, htl]
                rw [h'] at h
                exact absurd h (by simp)
              | some o2 =>
                have h' : runDispatch body (.ok resp :: tl)
                    = some ⟨body :: o2.sentBodies, p.retryAfter :: o2.sleeps,
                        o2.migratedChatID, o2.error, o2.result⟩ := by
                  simp [runDispatch, hok, hp, hm, hr, htl]
                rw [h'] at h
                injection h with h
                subst h
                exact ih o2 htl hmig
          · have h' : runDispatch body (.ok resp :: tl)
                = some ⟨[body], [], p.migrateToChatID, none, resp.result⟩ := by
              simp [runDispatch, hok, hp, hm]
            rw [h'] at h
            injection h with h
            subst h
            rfl

/-- C3 (code bug): with the API scripted to reply `ok=false` with
`migrate_to_chat_id = 123` to a `sendMessage` call with `ChatID = 10`, the
dispatcher signals migration by returning `(123, nil)`; `SendMessage` only
enters its migration-retry branch under a non-nil error (which, by
`runDispatch_migrated_imp_no_error`, never coincides with a non-zero migrated
id), so it performs exactly one dispatcher call with the original parameters,
never updates `ChatID`, and returns the zero-value message with a nil error
instead of reissuing the call with `ChatID = 123`. -/
theorem sendMessage_migration_retry_dead :
    runDispatch (serializeFields (SendMessageParams.mk 10 "hi").fields)
        [.ok (Response.mk false "group upgraded" (some ⟨123, 0⟩) none)]
      = some ⟨[serializeFields (SendMessageParams.mk 10 "hi").fields], [],
          123, none, none⟩ ∧
    sendMessage [.ok (Response.mk false "group upgraded" (some ⟨123, 0⟩) none)]
        [.ok (Response.mk true "" none (some "retried"))]
        (SendMessageParams.mk 10 "hi")
      = some (.ok "", [(SendMessageParams.mk 10 "hi").fields]) := by
  exact ⟨rfl, rfl⟩

/-! ### InputFile variants and the request encoder (types file and
telegrambot.go lines 107-145, 183-201)

`io.Reader` is modelled as `Option ByteStream` (`none` is a nil reader
interface value); the bytes `crypto/rand.Read` fills are supplied by an
explicit entropy stream `rand : Nat → List Nat`, one list per read. -/

/-- Content readable from an `io.Reader`. -/
abbrev ByteStream := List Nat

/-- Go `hex.EncodeToString`: two lowercase hex digits per byte. -/
def hexEncode (bs : List Nat) : String :=
  String.mk (List.flatten (bs.map (fun b => [Nat.digitChar (b / 16 % 16), Nat.digitChar (b % 16)])))

/-- Go `FileReader`: a name, a nilable `io.Reader`, and the unexported memoized
`fieldname` (`""` meaning not yet generated). -/
structure FileReader where
  name : String
  reader : Option ByteStream
  fieldname : String
deriving DecidableEq

/-- Go `FileReader.checkFieldname`: generate the random hex fieldname on first
use only.  `randBytes` models the 6 bytes `rand.Read` would fill. -/
def FileReader.checkFieldname (randBytes : List Nat) (fr : FileReader) : FileReader :=
  if fr.fieldname ≠ "" then fr else { fr with fieldname := hexEncode randBytes }

/-- Go `(*FileReader).multipartFormFile`: memoize the fieldname, then return
`(fieldname, filename, reader)` together with the (possibly updated) receiver. -/
def FileReader.multipartFormFile (randBytes : List Nat) (fr : FileReader) :
    (String × String × Option ByteStream) × FileReader :=
  let fr2 := fr.checkFieldname randBytes
  ((fr2.fieldname, fr2.name, fr2.reader), fr2)

/-- Go `(*FileReader).MarshalJSON`: memoize the fieldname, then serialize as the
JSON string `"attach://<fieldname>"`. -/
def FileReader.marshalJSON (randBytes : List Nat) (fr : FileReader) : String × FileReader :=
  let fr2 := fr.checkFieldname randBytes
  ("\"attach://" ++ fr2.fieldname ++ "\"", fr2)

/-- Go `InputFile` interface: closed over `FileID`, `FileURL` and `*FileReader`. -/
inductive InputFile where
  | fileID (id : String)
  | fileURL (url : String)
  | fileReader (fr : FileReader)
deriving DecidableEq

/-- Go `multipartFormFile` on each variant: `FileID` and `FileURL` return
`("", "", nil)`; `FileReader` memoizes and returns its triple. -/
def InputFile.multipartFormFile (randBytes : List Nat) :
    InputFile → (String × String × Option ByteStream) × InputFile
  | .fileID id => (("", "", none), .fileID id)
  | .fileURL url => (("", "", none), .fileURL url)
  | .fileReader fr =>
    let r := fr.multipartFormFile randBytes
    (r.1, .fileReader r.2)

/-- Loop body of Go `filterInputFilesNeedingUpload`: skip nil entries, keep the
files whose `multipartFormFile` reader is non-nil.  The entropy stream index
advances per `multipartFormFile` call and the (possibly memoized) files are
returned. -/
def filterAux (rand : Nat → List Nat) : Nat → List (Option InputFile) → List InputFile × Nat
  | k, [] => ([], k)
  | k, none :: rest => filterAux rand k rest
  | k, some f :: rest =>
    let r := f.multipartFormFile (rand k)
    let tail := filterAux rand (k + 1) rest
    if r.1.2.2.isSome then (r.2 :: tail.1, tail.2) else tail

/-- Go `filterInputFilesNeedingUpload` (telegrambot.go lines 183-201): a nil
slice stays nil; otherwise nil entries and entries with a nil reader are
dropped. -/
def filterInputFilesNeedingUpload (rand : Nat → List Nat) (k : Nat) :
    Option (List (Option InputFile)) → Option (List InputFile) × Nat
  | none => (none, k)
  | some files =>
    let r := filterAux rand k files
    (some r.1, r.2)

/-- The multipart form-file parts written by the upload loop of `makeAPICall`
(lines 125-136): one `CreateFormFile(fieldname, filename)` part per filtered
file, with the file's streamed content. -/
def partsOf (rand : Nat → List Nat) : Nat → List InputFile → List (String × String × ByteStream)
  | _, [] => []
  | k, f :: rest =>
    let r := f.multipartFormFile (rand k)
    (r.1.1, r.1.2.1, (r.1.2.2).getD []) :: partsOf rand (k + 1) rest

/-- The encoded request body `makeAPICall` sends: either the marshalled JSON
bytes verbatim, or a multipart form holding every JSON field as a string form
field plus the form-file parts. -/
inductive RequestBody where
  | json (bytes : String)
  | multipart (fields : List Field) (parts : List (String × String × ByteStream))
deriving DecidableEq

/-- The encoding step of `makeAPICall` (telegrambot.go lines 107-145): marshal
the request data once; if no input file needs upload, send
`application/json` with the JSON bytes verbatim, else send
`multipart/form-data` with every JSON field re-emitted as a string form field
plus one form-file part per file needing upload. -/
def makeAPICallEncode (rand : Nat → List Nat) (requestFields : List Field)
    (inputFiles : Option (List (Option InputFile))) : String × RequestBody :=
  let requestDataJSON := serializeFields requestFields
  let fr := filterInputFilesNeedingUpload rand 0 inputFiles
  match fr.1 with
  | none => ("application/json", .json requestDataJSON)
  | some [] => ("application/json", .json requestDataJSON)
  | some toUpload =>
    ("multipart/form-data", .multipart requestFields (partsOf rand fr.2 toUpload))

/-- An entry of the input-file list that actually needs upload: a non-nil
`FileReader` with a non-nil reader. -/
def uploadableEntry : Option InputFile → Bool
  | some (.fileReader fr) => fr.reader.isSome
  | _ => false

/-- Number of byte-stream references with a non-nil reader in the list. -/
def uploadableCount : Option (List (Option InputFile)) → Nat
  | none => 0
  | some files => files.countP uploadableEntry

/-- Number of byte-stream (`FileReader`) references in the list, nil reader or
not — the notion the claim is phrased with. -/
def fileReaderCount : Option (List (Option InputFile)) → Nat
  | none => 0
  | some files => files.countP (fun f => match f with
      | some (.fileReader _) => true
      | _ => false)

theorem checkFieldname_reader (rb : List Nat) (fr : FileReader) :
    (fr.checkFieldname rb).reader = fr.reader := by
  unfold FileReader.checkFieldname
  split <;> rfl

theorem multipartFormFile_reader_isSome (rb : List Nat) (f : InputFile) :
    ((f.multipartFormFile rb).1.2.2).isSome = uploadableEntry (some f) := by
  cases f with
  | fileID id => rfl
  | fileURL url => rfl
  | fileReader fr =>
    simp [InputFile.multipartFormFile, FileReader.multipartFormFile,
      checkFieldname_reader, uploadableEntry]

theorem filterAux_length (rand : Nat → List Nat) :
    ∀ (l : List (Option InputFile)) (k : Nat),
      ((filterAux rand k l).1).length = l.countP uploadableEntry := by
  intro l
  induction l with
  | nil => intro k; rfl
  | cons hd tl ih =>
    intro k
    cases hd with
    | none => simp [filterAux, List.countP_cons, uploadableEntry, ih k]
    | some f =>
      by_cases hu : uploadableEntry (some f) = true
      · simp [filterAux, multipartFormFile_reader_isSome (rand k) f, hu,
          List.countP_cons, ih (k + 1)]
      · simp [filterAux, multipartFormFile_reader_isSome (rand k) f, hu,
          List.countP_cons, ih (k + 1)]

theorem partsOf_length (rand : Nat → List Nat) :
    ∀ (l : List InputFile) (k : Nat), (partsOf rand k l).length = l.length := by
  intro l
  induction l with
  | nil => intro k; rfl
  | cons hd tl ih => intro k; simp [partsOf, ih (k + 1)]

/-- C4 counterexample: a list containing one byte-stream (`FileReader`)
reference whose reader is a nil interface value is sent as `application/json`,
not as multipart: `filterInputFilesNeedingUpload` drops it because its
`multipartFormFile` reader is nil. -/
theorem encode_fileReader_nil_reader_json :
    fileReaderCount (some [some (.fileReader ⟨"doc.txt", none, ""⟩)]) = 1 ∧
      makeAPICallEncode (fun _ => [0, 0, 0, 0, 0, 0]) [("chat_id", "5")]
          (some [some (.fileReader ⟨"doc.txt", none, ""⟩)])
        = ("application/json", .json (serializeFields [("chat_id", "5")])) := by
  exact ⟨rfl, rfl⟩

/-- C4 (amended): when zero byte-stream references with a non-nil reader are
present — the list being nil, containing nil entries, containing only `FileID`
or `FileURL` references, or `FileReader`s with nil readers — the request is
sent as `application/json` with the JSON bytes verbatim, nil entries skipped
without error; when at least one byte-stream reference with a non-nil reader
is present, the request is `multipart/form-data` with every JSON field as a
string form field plus one form-file part per such reference. -/
theorem encode_choice (rand : Nat → List Nat) (requestFields : List Field)
    (inputFiles : Option (List (Option InputFile))) :
    (uploadableCount inputFiles = 0 →
      makeAPICallEncode rand requestFields inputFiles
        = ("application/json", .json (serializeFields requestFields))) ∧
    (0 < uploadableCount inputFiles →
      ∃ parts, makeAPICallEncode rand requestFields inputFiles
          = ("multipart/form-data", .multipart requestFields parts) ∧
        parts.length = uploadableCount inputFiles) := by
  constructor
  · intro h
    cases inputFiles with
    | none => rfl
    | some files =>
      have hlen : ((filterAux rand 0 files).1).length = 0 := by
        rw [filterAux_length]
        exact h
      have hnil : (filterAux rand 0 files).1 = [] :=
        List.eq_nil_of_length_eq_zero hlen
      simp [makeAPICallEncode, filterInputFilesNeedingUpload, hnil]
  · intro h
    cases inputFiles with
    | none => simp [uploadableCount] at h
    | some files =>
      have hlen : ((filterAux rand 0 files).1).length = files.countP uploadableEntry :=
        filterAux_length rand files 0
      match hfa : (filterAux rand 0 files).1 with
      | [] =>
        rw [hfa] at hlen
        rw [show uploadableCount (some files) = files.countP uploadableEntry from rfl,
          ← hlen] at h
        simp at h
      | f :: rest =>
        refine ⟨partsOf rand (filterAux rand 0 files).2 (f :: rest), ?_, ?_⟩
        · simp [makeAPICallEncode, filterInputFilesNeedingUpload, hfa]
        · rw [partsOf_length]
          rw [hfa] at hlen
          exact hlen

/-- Witness for the amended C4 at concrete inputs: a `FileURL`-only list goes
out as JSON; a list with a nil entry, a `FileID` and one `FileReader` with a
non-nil reader goes out as multipart with exactly one form-file part. -/
theorem encode_choice_witness :
    (makeAPICallEncode (fun _ => [1, 2, 3, 4, 5, 6]) [("x", "1")]
        (some [some (.fileURL "http")])
      = ("application/json", .json (serializeFields [("x", "1")]))) ∧
    (∃ parts, makeAPICallEncode (fun _ => [1, 2, 3, 4, 5, 6]) [("x", "1")]
          (some [none, some (.fileID "abc"),
            some (.fileReader ⟨"a.png", some [1, 2], ""⟩)])
        = ("multipart/form-data", .multipart [("x", "1")] parts) ∧
      parts.length = 1) := by
  constructor
  · exact (encode_choice (fun _ => [1, 2, 3, 4, 5, 6]) [("x", "1")]
      (some [some (.fileURL "http")])).1 (by decide)
  · obtain ⟨parts, h1, h2⟩ := (encode_choice (fun _ => [1, 2, 3, 4, 5, 6]) [("x", "1")]
      (some [none, some (.fileID "abc"),
        some (.fileReader ⟨"a.png", some [1, 2], ""⟩)])).2 (by decide)
    exact ⟨parts, h1, h2⟩

theorem hexEncode_ne_empty (bs : List Nat) (h : bs ≠ []) : hexEncode bs ≠ "" := by
  cases bs with
  | nil => exact absurd rfl h
  | cons b rest =>
    intro hc
    have := congrArg String.data hc
    simp [hexEncode] at this

theorem checkFieldname_stable (rb : List Nat) (fr : FileReader)
    (h : fr.fieldname ≠ "") : fr.checkFieldname rb = fr := by
  simp [FileReader.checkFieldname, h]

theorem checkFieldname_set (rb : List Nat) (fr : FileReader)
    (h : fr.fieldname = "") : (fr.checkFieldname rb).fieldname = hexEncode rb := by
  simp [FileReader.checkFieldname, h]

theorem checkFieldname_ne_empty (rb : List Nat) (fr : FileReader) (h : rb ≠ []) :
    (fr.checkFieldname rb).fieldname ≠ "" := by
  by_cases hf : fr.fieldname = ""
  · rw [checkFieldname_set rb fr hf]
    exact hexEncode_ne_empty rb h
  · rw [checkFieldname_stable rb fr hf]
    exact hf

/-- C5: for a byte-stream reference, the form-file field name returned by
`multipartFormFile` exactly equals the name embedded as `attach://<name>` by
`MarshalJSON`, in either order of first use; the name is generated on first
use only and memoized (a later use leaves the reference unchanged), and a
reference whose name is already set is never regenerated. -/
theorem fileReader_attach_name_correlation (fr : FileReader) (rb1 rb2 : List Nat)
    (h : rb1.length = 6) :
    ((fr.marshalJSON rb1).1
        = "\"attach://" ++ (((fr.marshalJSON rb1).2).multipartFormFile rb2).1.1 ++ "\""
      ∧ (((fr.marshalJSON rb1).2).multipartFormFile rb2).2 = (fr.marshalJSON rb1).2)
    ∧ (((fr.multipartFormFile rb1).2.marshalJSON rb2).1
        = "\"attach://" ++ (fr.multipartFormFile rb1).1.1 ++ "\""
      ∧ ((fr.multipartFormFile rb1).2.marshalJSON rb2).2 = (fr.multipartFormFile rb1).2)
    ∧ (fr.fieldname = "" → (fr.marshalJSON rb1).2.fieldname = hexEncode rb1)
    ∧ (fr.fieldname ≠ "" → (fr.marshalJSON rb1).2 = fr) := by
  have hne : rb1 ≠ [] := by
    intro hc
    rw [hc] at h
    simp at h
  have hset : (fr.checkFieldname rb1).checkFieldname rb2 = fr.checkFieldname rb1 :=
    checkFieldname_stable rb2 _ (checkFieldname_ne_empty rb1 fr hne)
  refine ⟨⟨?_, ?_⟩, ⟨?_, ?_⟩, ?_, ?_⟩
  · simp [FileReader.marshalJSON, FileReader.multipartFormFile, hset]
  · simp [FileReader.marshalJSON, FileReader.multipartFormFile, hset]
  · simp [FileReader.marshalJSON, FileReader.multipartFormFile, hset]
  · simp [FileReader.marshalJSON, FileReader.multipartFormFile, hset]
  · intro hf
    simp [FileReader.marshalJSON, checkFieldname_set rb1 fr hf]
  · intro hf
    simp [FileReader.marshalJSON, checkFieldname_stable rb1 fr hf]

/-- Witness for C5 at a concrete reference and concrete entropy: the JSON
serialization embeds exactly the fieldname the multipart part uses. -/
theorem fileReader_attach_name_correlation_witness :
    ([1, 2, 3, 4, 5, 6] : List Nat).length = 6 ∧
      ((FileReader.mk "a.txt" (some [7]) "").marshalJSON [1, 2, 3, 4, 5, 6]).1
        = "\"attach://"
            ++ ((((FileReader.mk "a.txt" (some [7]) "").marshalJSON
                [1, 2, 3, 4, 5, 6]).2).multipartFormFile [9, 9, 9, 9, 9, 9]).1.1
            ++ "\"" := by
  exact ⟨rfl,
    ((fileReader_attach_name_correlation (FileReader.mk "a.txt" (some [7]) "")
      [1, 2, 3, 4, 5, 6] [9, 9, 9, 9, 9, 9] rfl).1).1⟩

/-! ### Update poller (telegrambotTools.go lines 40-100)

One repeater tick of `StartReceivingUpdatesWithParams` is `pollCycle`: it
fetches (scripted as an `Except`), sorts, delivers to the receiver, and
advances `params.Offset`.  `pollSession` chains cycles, accumulating the
`(update, err)` pairs passed to the receiver. -/

/-- Go `Update`, reduced to its sequence identifier (`UpdateID`, a Go `int`)
plus a payload standing for the event content. -/
structure Update where
  updateID : Int
  payload : String
deriving DecidableEq

/-- The `UpdateID` comparison `sort.Sort` orders by (`updatesSortInterface.Less`
compares `UpdateID`; the resulting order is nondecreasing in `UpdateID`). -/
def updateLE (a b : Update) : Bool := decide (a.updateID ≤ b.updateID)

/-- Go `SortUpdates`: sorts by `UpdateID` ascending (`sort.Sort` on
`updatesSortInterface`, whose `Less` compares `UpdateID`). -/
def SortUpdates (updates : List Update) : List Update :=
  updates.mergeSort updateLE

/-- One `(update, err)` pair passed to the receiver callback. -/
abbrev Delivery := Option Update × Option String

/-- One repeater tick of `StartReceivingUpdatesWithParams` (lines 41-59): on a
fetch error, deliver `(nil, err)` and leave the offset unchanged; on an empty
batch, do nothing; otherwise sort, deliver each update in order, and set the
offset to the last sorted update's `UpdateID + 1`. -/
def pollCycle (offset : Int) (fetch : Except String (List Update)) :
    Int × List Delivery :=
  match fetch with
  | .error e => (offset, [(none, some e)])
  | .ok updates =>
    if updates.length = 0 then (offset, [])
    else
      let sorted := SortUpdates updates
      ((sorted.getLastD ⟨0, ""⟩).updateID + 1, sorted.map (fun u => (some u, none)))

/-- A polling session: the repeater keeps invoking the tick for each scripted
fetch; deliveries accumulate and the offset is threaded through. -/
def pollSession (offset : Int) : List (Except String (List Update)) → Int × List Delivery
  | [] => (offset, [])
  | f :: fs =>
    let c := pollCycle offset f
    let s := pollSession c.1 fs
    (s.1, c.2 ++ s.2)

/-- C6: a non-empty fetched batch is delivered exactly once per update (the
delivered list is the batch sorted, a permutation of it), in ascending
`UpdateID` order, after which the offset becomes the last delivered update's
identifier plus one; an empty batch delivers nothing and leaves the offset
unchanged. -/
theorem pollCycle_delivers_sorted (offset : Int) (updates : List Update) :
    (updates ≠ [] →
      (pollCycle offset (.ok updates)).2
          = (SortUpdates updates).map (fun u => (some u, none))
        ∧ (SortUpdates updates).Perm updates
        ∧ List.Pairwise (fun a b : Update => a.updateID ≤ b.updateID) (SortUpdates updates)
        ∧ (pollCycle offset (.ok updates)).1
            = ((SortUpdates updates).getLastD ⟨0, ""⟩).updateID + 1)
    ∧ pollCycle offset (.ok []) = (offset, []) := by
  constructor
  · intro h
    have hlen : ¬(updates.length = 0) := by simpa using h
    refine ⟨by simp [pollCycle, hlen], List.mergeSort_perm updates _, ?_,
      by simp [pollCycle, hlen]⟩
    have htrans : ∀ (a b c : Update), updateLE a b → updateLE b c → updateLE a c := by
      intro a b c h1 h2
      simp only [updateLE, decide_eq_true_eq] at h1 h2 ⊢
      exact le_trans h1 h2
    have htotal : ∀ (a b : Update), updateLE a b || updateLE b a := by
      intro a b
      simp only [updateLE, Bool.or_eq_true, decide_eq_true_eq]
      exact le_total a.updateID b.updateID
    have hs := @List.sorted_mergeSort Update updateLE htrans htotal updates
    exact hs.imp (fun hab => by simpa [updateLE] using hab)
  · rfl

unseal List.merge List.mergeSort in
/-- Witness for C6, the spec's example: identifiers `[5, 3, 4]` are delivered
as `3, 4, 5` and the cursor advances to `6`. -/
theorem pollCycle_delivers_sorted_witness :
    ([⟨5, "a"⟩, ⟨3, "b"⟩, ⟨4, "c"⟩] : List Update) ≠ [] ∧
      pollCycle 0 (.ok [⟨5, "a"⟩, ⟨3, "b"⟩, ⟨4, "c"⟩])
        = (6, [(some ⟨3, "b"⟩, none), (some ⟨4, "c"⟩, none), (some ⟨5, "a"⟩, none)]) := by
  obtain ⟨hds, hperm, hsort, hoff⟩ :=
    (pollCycle_delivers_sorted 0 [⟨5, "a"⟩, ⟨3, "b"⟩, ⟨4, "c"⟩]).1 (by decide)
  have hsorted : SortUpdates [⟨5, "a"⟩, ⟨3, "b"⟩, ⟨4, "c"⟩]
      = [⟨3, "b"⟩, ⟨4, "c"⟩, ⟨5, "a"⟩] := by rfl
  refine ⟨by decide, ?_⟩
  have hsplit : pollCycle 0 (.ok [⟨5, "a"⟩, ⟨3, "b"⟩, ⟨4, "c"⟩])
      = ((pollCycle 0 (.ok [⟨5, "a"⟩, ⟨3, "b"⟩, ⟨4, "c"⟩])).1,
         (pollCycle 0 (.ok [⟨5, "a"⟩, ⟨3, "b"⟩, ⟨4, "c"⟩])).2) := rfl
  rw [hsplit, hoff, hds, hsorted]
  rfl

/-- C7: a failed fetch delivers the error to the receiver as a `(nil, err)`
pair, leaves the offset exactly as it was, and the loop goes on with the
remaining cycles instead of stopping. -/
theorem pollCycle_error_continues (offset : Int) (e : String)
    (fs : List (Except String (List Update))) :
    pollCycle offset (.error e) = (offset, [(none, some e)])
    ∧ pollSession offset (.error e :: fs)
        = ((pollSession offset fs).1, (none, some e) :: (pollSession offset fs).2) := by
  exact ⟨rfl, by simp [pollSession, pollCycle]⟩

unseal List.merge List.mergeSort in
/-- C8 counterexample: with the cursor at `10`, a fetch returning a single
update with identifier `3` moves the cursor back to `4 < 10`: nothing in the
code clamps the new offset to the old one. -/
theorem pollCycle_cursor_can_decrease :
    (pollCycle 10 (.ok [⟨3, "m"⟩])).1 = 4 ∧ ((4 : Int) < 10) := by
  exact ⟨rfl, by decide⟩

/-- The provider's offset contract for one fetch: every update of a successful
batch has an identifier at least the offset the fetch was issued with. -/
def batchCompliant (o : Int) : Except String (List Update) → Bool
  | .error _ => true
  | .ok us => us.all (fun u => decide (o ≤ u.updateID))

/-- The offset contract along a whole session, against the running offset. -/
def providerCompliant : Int → List (Except String (List Update)) → Bool
  | _, [] => true
  | o, f :: fs => batchCompliant o f && providerCompliant (pollCycle o f).1 fs

theorem sortUpdates_perm (us : List Update) : (SortUpdates us).Perm us :=
  List.mergeSort_perm us _

theorem pollCycle_cursor_mono (o : Int) (f : Except String (List Update))
    (h : batchCompliant o f = true) : o ≤ (pollCycle o f).1 := by
  cases f with
  | error e => simp [pollCycle]
  | ok us =>
    by_cases hl : us.length = 0
    · simp [pollCycle, hl]
    · have hne : SortUpdates us ≠ [] := by
        intro hc
        have hp := (sortUpdates_perm us).symm
        rw [hc] at hp
        have := List.Perm.length_eq hp
        simp at this
        exact hl (by simp [this])
      have hmem : (SortUpdates us).getLastD ⟨0, ""⟩ ∈ SortUpdates us := by
        cases hs : SortUpdates us with
        | nil => exact absurd hs hne
        | cons a as =>
          rw [List.getLastD_eq_getLast?]
          have hlast := List.getLast?_eq_getLast (a :: as) (by simp)
          rw [hlast]
          exact List.getLast_mem _
      have hmem2 : (SortUpdates us).getLastD ⟨0, ""⟩ ∈ us :=
        (sortUpdates_perm us).mem_iff.mp hmem
      have hall : o ≤ ((SortUpdates us).getLastD ⟨0, ""⟩).updateID := by
        simp only [batchCompliant, List.all_eq_true, decide_eq_true_eq] at h
        exact h _ hmem2
      simp only [pollCycle, hl, if_false]
      omega

/-- C8 (amended): along one polling session, provided every fetched batch
respects the provider's offset contract (each update identifier at least the
offset the fetch was issued with), the cursor never decreases. -/
theorem pollSession_cursor_mono (fs : List (Except String (List Update))) :
    ∀ (o : Int), providerCompliant o fs = true → o ≤ (pollSession o fs).1 := by
  induction fs with
  | nil =>
    intro o h
    simp [pollSession]
  | cons f fs ih =>
    intro o h
    simp only [providerCompliant, Bool.and_eq_true] at h
    have h1 := pollCycle_cursor_mono o f h.1
    have h2 := ih (pollCycle o f).1 h.2
    simp only [pollSession]
    exact le_trans h1 h2

unseal List.merge List.mergeSort in
/-- Witness for the amended C8: a compliant session of one batch and one
failing fetch does not move the cursor below its start value. -/
theorem pollSession_cursor_mono_witness :
    providerCompliant 3 [.ok [⟨5, "a"⟩], .error "boom"] = true ∧
      (3 : Int) ≤ (pollSession 3 [.ok [⟨5, "a"⟩], .error "boom"]).1 := by
  exact ⟨by decide, pollSession_cursor_mono [.ok [⟨5, "a"⟩], .error "boom"] 3 (by decide)⟩

/-! ### ParseMessageCommand (telegrambotTools.go lines 138-173)

Go string indexing is by byte; the model represents the text as its `Char`
list and Go's panicking slice expressions `text[1:entity.Length]` and
`text[entity.Length:]` as `Option`-valued slices that are `none` exactly when
Go would panic with a slice-bounds error. -/

/-- Go constant `MessageEntityTypeBotCommand = "bot_command"`. -/
def MessageEntityTypeBotCommand : String := "bot_command"

/-- Go `MessageEntity`: entity type plus `Offset` and `Length` (Go `int`). -/
structure MessageEntity where
  type : String
  offset : Int
  length : Int
deriving DecidableEq

/-- Go `Message`, reduced to the fields `ParseMessageCommand` reads. -/
structure Message where
  text : String
  entities : List MessageEntity
  caption : String
  captionEntities : List MessageEntity
deriving DecidableEq

/-- Go `s[lo:hi]` on a string: panics (`none`) unless `0 ≤ lo ≤ hi ≤ len(s)`. -/
def goStringSlice (s : List Char) (lo hi : Int) : Option (List Char) :=
  if 0 ≤ lo ∧ lo ≤ hi ∧ hi ≤ (s.length : Int) then
    some ((s.take hi.toNat).drop lo.toNat)
  else none

/-- Go `s[lo:]` on a string: panics (`none`) unless `0 ≤ lo ≤ len(s)`. -/
def goStringSliceFrom (s : List Char) (lo : Int) : Option (List Char) :=
  if 0 ≤ lo ∧ lo ≤ (s.length : Int) then some (s.drop lo.toNat) else none

/-- Go `strings.TrimSpace`: strip whitespace from both ends. -/
def trimSpace (s : List Char) : List Char :=
  ((s.dropWhile Char.isWhitespace).reverse.dropWhile Char.isWhitespace).reverse

/-- Go `strings.Index(s, string(c))` for a single character: the index of the
first occurrence, `none` standing for Go's `-1`. -/
def indexOfChar (c : Char) : List Char → Option Nat
  | [] => none
  | x :: xs => if x = c then some 0 else (indexOfChar c xs).map (· + 1)

/-- The `switch` at the head of `ParseMessageCommand`: text and entities come
from `Text`/`Entities` when `Text` is non-empty, else from
`Caption`/`CaptionEntities` when `Caption` is non-empty, else neither. -/
def selectTextEntities (msg : Message) : Option (String × List MessageEntity) :=
  if msg.text ≠ "" then some (msg.text, msg.entities)
  else if msg.caption ≠ "" then some (msg.caption, msg.captionEntities)
  else none

/-- The loop's guard: the Go code `continue`s unless the entity is a
bot-command entity at offset 0. -/
def isCommandEntity (e : MessageEntity) : Bool :=
  e.type == MessageEntityTypeBotCommand && e.offset == 0

/-- The loop body run on the first matching entity: slice out the command,
cut it at the first `@`, and trim the rest of the text as the arguments.
`none` models a slice-bounds panic. -/
def processEntity (text : List Char) (e : MessageEntity) : Option (String × String) :=
  match goStringSlice text 1 e.length with
  | none => none
  | some cmdChars =>
    let command :=
      match indexOfChar '@' cmdChars with
      | some i => cmdChars.take i
      | none => cmdChars
    match goStringSliceFrom text e.length with
    | none => none
    | some argsChars => some (String.mk command, String.mk (trimSpace argsChars))

/-- The entity loop of `ParseMessageCommand` (lines 155-170): first matching
entity wins, no match leaves `("", "")`. -/
def parseLoop (text : List Char) : List MessageEntity → Option (String × String)
  | [] => some ("", "")
  | e :: rest =>
    if isCommandEntity e then processEntity text e else parseLoop text rest

/-- Go `ParseMessageCommand`: `none` models a panic, `some (command, args)` a
normal return. -/
def ParseMessageCommand (msg : Message) : Option (String × String) :=
  match selectTextEntities msg with
  | none => some ("", "")
  | some (text, entities) => parseLoop text.data entities

theorem parseLoop_eq_of_find (text : List Char) :
    ∀ (entities : List MessageEntity) (e : MessageEntity),
      entities.find? isCommandEntity = some e →
      parseLoop text entities = processEntity text e := by
  intro entities
  induction entities with
  | nil =>
    intro e h
    simp at h
  | cons hd tl ih =>
    intro e h
    by_cases hc : isCommandEntity hd
    · rw [List.find?_cons_of_pos _ hc] at h
      injection h with h
      subst h
      simp [parseLoop, hc]
    · rw [List.find?_cons_of_neg _ (by simpa using hc)] at h
      simp [parseLoop, hc, ih e h]

theorem take_indexOfChar_eq_takeWhile (c : Char) :
    ∀ l : List Char,
      (match indexOfChar c l with
       | some i => l.take i
       | none => l) = l.takeWhile (fun x => !(x == c)) := by
  intro l
  induction l with
  | nil => rfl
  | cons x xs ih =>
    by_cases hx : x = c
    · simp [indexOfChar, hx, List.takeWhile_cons]
    · cases hidx : indexOfChar c xs with
      | none =>
        rw [hidx] at ih
        simp only [] at ih
        simp [indexOfChar, hx, hidx, List.takeWhile_cons, ← ih]
      | some i =>
        rw [hidx] at ih
        simp only [] at ih
        simp [indexOfChar, hx, hidx, List.takeWhile_cons, ← ih]

/-- C10: `ParseMessageCommand` slices by the first matching entity's declared
`Length` without bounds checking: when `1 ≤ Length ≤ len(text)` it is total
and returns the text between the leading `/` and the entity length with any
`@username` suffix removed (plus the trimmed remainder as arguments); when
`Length` exceeds the text length, the slice expressions go out of bounds
(a panic, modelled as `none`). -/
theorem parseMessageCommand_slice_bounds (msg : Message) (text : String)
    (entities : List MessageEntity) (e : MessageEntity)
    (hsel : selectTextEntities msg = some (text, entities))
    (hfind : entities.find? isCommandEntity = some e) :
    ((1 ≤ e.length ∧ e.length ≤ (text.data.length : Int)) →
      ParseMessageCommand msg
        = some (String.mk (((text.data.take e.length.toNat).drop 1).takeWhile
              (fun x => !(x == '@'))),
            String.mk (trimSpace (text.data.drop e.length.toNat))))
    ∧ ((text.data.length : Int) < e.length → ParseMessageCommand msg = none) := by
  have hmain : ParseMessageCommand msg = processEntity text.data e := by
    rw [ParseMessageCommand, hsel]
    exact parseLoop_eq_of_find text.data entities e hfind
  constructor
  · intro h
    have hs1 : goStringSlice text.data 1 e.length
        = some ((text.data.take e.length.toNat).drop 1) := by
      rw [goStringSlice, if_pos ⟨by norm_num, h.1, h.2⟩]
      rfl
    have hs2 : goStringSliceFrom text.data e.length
        = some (text.data.drop e.length.toNat) :=
      if_pos ⟨le_trans (by norm_num) h.1, h.2⟩
    rw [hmain]
    simp only [processEntity, hs1, hs2]
    rw [take_indexOfChar_eq_takeWhile '@' ((text.data.take e.length.toNat).drop 1)]
  · intro h
    have hs1 : goStringSlice text.data 1 e.length = none := by
      rw [goStringSlice, if_neg]
      intro hc
      omega
    rw [hmain, processEntity, hs1]

/-- Witness for C10 at concrete messages: `/start@mybot hello` with a correct
entity length 12 yields `("start", "hello")`; the same text with a declared
length of 99 panics. -/
theorem parseMessageCommand_slice_bounds_witness :
    ParseMessageCommand
        (Message.mk "/start@mybot hello" [MessageEntity.mk "bot_command" 0 12] "" [])
      = some ("start", "hello") ∧
    ParseMessageCommand
        (Message.mk "/start@mybot hello" [MessageEntity.mk "bot_command" 0 99] "" [])
      = none := by
  constructor
  · have h := (parseMessageCommand_slice_bounds
      (Message.mk "/start@mybot hello" [MessageEntity.mk "bot_command" 0 12] "" [])
      "/start@mybot hello" [MessageEntity.mk "bot_command" 0 12]
      (MessageEntity.mk "bot_command" 0 12) rfl (by decide)).1 (by decide)
    rw [h]
    decide
  · exact (parseMessageCommand_slice_bounds
      (Message.mk "/start@mybot hello" [MessageEntity.mk "bot_command" 0 99] "" [])
      "/start@mybot hello" [MessageEntity.mk "bot_command" 0 99]
      (MessageEntity.mk "bot_command" 0 99) rfl (by decide)).2 (by decide)

end Telegrambot
